import Mathlib

/-!
Shallow embedding of the GXF extension-loading and entity-lifecycle
subsystem declared in `gxf/core/gxf_ext.h`.  The header only declares the
API (`GxfLoadExtensions`, `GxfLoadExtensionMetadataFiles`,
`GxfCreateEntity`, `GxfSetSeverity`) together with its data structures and
documentation contracts; the function bodies live outside this repository,
so every operation below is modelled from the specification's contracts.
-/

namespace GxfExt

/-- Modelled from the spec: result-code taxonomy of §7 for the header's
`gxf_result_t` return type (the concrete numeric codes are not in the
repository). -/
inductive gxf_result_t where
  | GXF_SUCCESS
  | GXF_ARGUMENT_INVALID
  | GXF_NOT_FOUND
  | GXF_ALREADY_EXISTS
  | GXF_LOAD_FAILURE
  | GXF_INVALID_STATE
  | GXF_UNSUPPORTED
  deriving DecidableEq, Repr

/-- Severity levels, exactly the enumerators of `gxf_severity_t` in
`gxf_ext.h` (lines 146-152). -/
inductive gxf_severity_t where
  | GXF_SEVERITY_NONE
  | GXF_SEVERITY_ERROR
  | GXF_SEVERITY_WARNING
  | GXF_SEVERITY_INFO
  | GXF_SEVERITY_DEBUG
  deriving DecidableEq, Repr

/-- Numeric value of each severity level, as fixed by the enumerator
values in `gxf_ext.h` (`GXF_SEVERITY_NONE = 0` … `GXF_SEVERITY_DEBUG = 4`). -/
def gxf_severity_t.val : gxf_severity_t → Nat
  | .GXF_SEVERITY_NONE => 0
  | .GXF_SEVERITY_ERROR => 1
  | .GXF_SEVERITY_WARNING => 2
  | .GXF_SEVERITY_INFO => 3
  | .GXF_SEVERITY_DEBUG => 4

/-- Activation state of an entity; `Destroyed` models a released handle
(spec §4.3 state machine). -/
inductive ActivationState where
  | Inactive
  | Active
  | Destroyed
  deriving DecidableEq, Repr

/-- Modelled from the spec: one loaded shared library (§3 ExtensionRecord):
canonical path plus a flag saying whether only the metadata was loaded. -/
structure ExtensionRecord where
  path : String
  metadataOnly : Bool
  deriving DecidableEq, Repr

/-- Modelled from the spec: an entity record (§3 EntityHandle): uid, name,
whether the program-managed creation flag was set, and activation state. -/
structure Entity where
  eid : Nat
  name : String
  programManaged : Bool
  state : ActivationState
  deriving DecidableEq, Repr

/-- Modelled from the spec: the Context state (§3): loaded extension
records, the registry of registered type names, live entities, the
program-activation flag, the severity threshold, and a uid counter. -/
structure Context where
  extensions : List ExtensionRecord
  registry : List String
  entities : List Entity
  programActive : Bool
  severity : gxf_severity_t
  nextUid : Nat
  deriving DecidableEq, Repr

/-- Modelled from the spec: an extension shared library's registration
entry point, abstracted as the type names it registers (`provides`) and the
type names its registration code looks up (`requires`), per §4.1/§5: a
lookup succeeds iff the name is already in the registry. -/
structure Library where
  provides : List String
  requires : List String

/-- Modelled from the spec: the external collaborators of §2/§6 — the
Manifest Reader (`manifest`, `none` = missing/unparseable manifest), the
dynamic linker (`library`, `none` = open/symbol failure), and the metadata
file parser (`metadata`, `none` = missing/corrupt file). -/
structure World where
  manifest : String → Option (List String)
  library : String → Option Library
  metadata : String → Option (List String)

/-- Mirror of the C struct `GxfLoadExtensionsInfo` (`gxf_ext.h` lines
38-50): direct extension filenames, manifest filenames, optional base
directory.  The `_count` fields are the list lengths. -/
structure GxfLoadExtensionsInfo where
  extension_filenames : List String
  manifest_filenames : List String
  base_directory : Option String

/-- Modelled from the spec: path resolution (§4.1) — the optional base
directory is prepended to every filename, direct and manifest-derived. -/
def resolvePath (base : Option String) (p : String) : String :=
  match base with
  | none => p
  | some d => d ++ "/" ++ p

/-- Modelled from the spec: duplicate removal inside one call's combined
list (§4.1: "duplicates removed by canonical path, first occurrence
wins"). -/
def firstWinsAux (seen : List String) : List String → List String
  | [] => []
  | p :: rest =>
    if p ∈ seen then firstWinsAux seen rest
    else p :: firstWinsAux (p :: seen) rest

/-- Canonical paths already holding an ExtensionRecord in the Context. -/
def Context.loadedPaths (c : Context) : List String :=
  c.extensions.map ExtensionRecord.path

/-- Modelled from the spec: manifest expansion (§4.1) — each manifest is
handed to the Manifest Reader and yields its ordered list of library
paths; manifests are processed in the order given; a missing manifest is a
`NotFound` error. -/
def expandManifests (w : World) : List String → Except gxf_result_t (List String)
  | [] => .ok []
  | m :: rest =>
    match w.manifest m with
    | none => .error .GXF_NOT_FOUND
    | some ps =>
      match expandManifests w rest with
      | .error e => .error e
      | .ok qs => .ok (ps ++ qs)

/-- Modelled from the spec: the combined ordered list of one
`GxfLoadExtensions` call (§4.1): direct paths followed by the
manifest-expanded paths, each resolved against the base directory, with
duplicates removed first-occurrence-wins. -/
def combinedPaths (info : GxfLoadExtensionsInfo) (manifestPaths : List String) :
    List String :=
  firstWinsAux []
    ((info.extension_filenames ++ manifestPaths).map (resolvePath info.base_directory))

/-- Modelled from the spec: loading one library (§4.1): a path that
already has an ExtensionRecord (full or metadata-only) is a duplicate-load
`AlreadyExists` error; a library the linker cannot open is a
`LoadFailure`; otherwise the registration entry point runs — it succeeds
iff every type it looks up is already registered — and on success a new
full ExtensionRecord is appended and the library's types are registered. -/
def loadLibrary (w : World) (c : Context) (p : String) : Except gxf_result_t Context :=
  if p ∈ c.loadedPaths then .error .GXF_ALREADY_EXISTS
  else
    match w.library p with
    | none => .error .GXF_LOAD_FAILURE
    | some lib =>
      if lib.requires.all (fun t => c.registry.contains t) then
        .ok { c with
              extensions := c.extensions ++ [⟨p, false⟩],
              registry := c.registry ++ lib.provides }
      else .error .GXF_LOAD_FAILURE

/-- Modelled from the spec: fail-fast processing of the combined list
(§4.1): libraries are loaded and registered in list order; the first
failure aborts the remaining entries and the partial state is kept (no
rollback). -/
def loadList (w : World) : Context → List String → gxf_result_t × Context
  | c, [] => (.GXF_SUCCESS, c)
  | c, p :: rest =>
    match loadLibrary w c p with
    | .error e => (e, c)
    | .ok c2 => loadList w c2 rest

/-- Modelled from the spec: `GxfLoadExtensions` (`gxf_ext.h` line 76,
contract §4.1): expand the manifests, build the combined ordered list,
and load it fail-fast. -/
def GxfLoadExtensions (w : World) (c : Context) (info : GxfLoadExtensionsInfo) :
    gxf_result_t × Context :=
  match expandManifests w info.manifest_filenames with
  | .error e => (e, c)
  | .ok mp => loadList w c (combinedPaths info mp)

/-- Modelled from the spec: loading one metadata file (§4.2): a missing or
corrupt file is a reportable error; a duplicate path is a duplicate-load
error; otherwise a metadata-only ExtensionRecord is appended and the
file's type descriptors are registered. -/
def loadMetadataFile (w : World) (c : Context) (f : String) : gxf_result_t × Context :=
  match w.metadata f with
  | none => (.GXF_NOT_FOUND, c)
  | some types =>
    if f ∈ c.loadedPaths then (.GXF_ALREADY_EXISTS, c)
    else (.GXF_SUCCESS,
          { c with
            extensions := c.extensions ++ [⟨f, true⟩],
            registry := c.registry ++ types })

/-- Modelled from the spec: best-effort per-file processing of
`GxfLoadExtensionMetadataFiles` (§4.2): every file is processed in list
order and yields its own result; a failing file never aborts its
siblings.  Returns the per-file results together with the final Context. -/
def loadMetadataList (w : World) : Context → List String → List gxf_result_t × Context
  | c, [] => ([], c)
  | c, f :: rest =>
    let r := loadMetadataFile w c f
    let rr := loadMetadataList w r.2 rest
    (r.1 :: rr.1, rr.2)

/-- Modelled from the spec: `GxfLoadExtensionMetadataFiles` (`gxf_ext.h`
lines 97-98): process every file independently; the call's overall code is
the first per-file error, or success when all files succeeded. -/
def GxfLoadExtensionMetadataFiles (w : World) (c : Context) (files : List String) :
    gxf_result_t × Context :=
  let r := loadMetadataList w c files
  (((r.1.find? (fun e => e ≠ .GXF_SUCCESS)).getD .GXF_SUCCESS), r.2)

/-- The program-managed creation flag bit, `GXF_ENTITY_CREATE_PROGRAM_BIT
= 0x00000001` (`gxf_ext.h` line 109). -/
def GXF_ENTITY_CREATE_PROGRAM_BIT : Nat := 1

/-- Whether a creation-flags bitmask has the program-managed bit set. -/
def hasProgramBit (flags : Nat) : Bool :=
  decide ((flags &&& GXF_ENTITY_CREATE_PROGRAM_BIT) ≠ 0)

/-- Mirror of the C struct `GxfEntityCreateInfo` (`gxf_ext.h` lines
116-123): optional entity name (`none` models a null pointer) and the
creation-flags bitmask. -/
structure GxfEntityCreateInfo where
  entity_name : Option String
  flags : Nat

/-- Whether a name starts with the reserved double underscore
(`gxf_ext.h` line 118: "The name must not start with a double
underscore"). -/
def startsWithDoubleUnderscore (s : String) : Bool :=
  match s.data with
  | '_' :: '_' :: _ => true
  | _ => false

/-- Length of the longest entity name currently recorded in the Context. -/
def maxNameLen (c : Context) : Nat :=
  (c.entities.map (fun e => e.name.length)).foldr max 0

/-- Modelled from the spec: the internally generated entity name (§4.3:
"an undefined unique name"; §3: auto-generated names use the reserved
double-underscore space).  The scheme is unspecified by the source, so we
pick one that is unique by construction: a reserved-space name strictly
longer than every recorded name. -/
def freshName (c : Context) : String :=
  String.mk ('_' :: '_' :: List.replicate (maxNameLen c + 1) 'e')

/-- Modelled from the spec: `GxfCreateEntity` (`gxf_ext.h` lines 140-141,
contract §4.3): a provided name starting with the reserved double
underscore is an `InvalidArgument` error (not auto-corrected); an omitted
(null) or empty name gets an internally generated unique name; the new
entity starts `Inactive` with a fresh uid, regardless of the
program-activation state. -/
def GxfCreateEntity (c : Context) (info : GxfEntityCreateInfo) :
    gxf_result_t × Option Nat × Context :=
  let mk : String → gxf_result_t × Option Nat × Context := fun nm =>
    (.GXF_SUCCESS, some c.nextUid,
     { c with
       entities := c.entities ++ [⟨c.nextUid, nm, hasProgramBit info.flags, .Inactive⟩],
       nextUid := c.nextUid + 1 })
  match info.entity_name with
  | none => mk (freshName c)
  | some n =>
    if n = "" then mk (freshName c)
    else if startsWithDoubleUnderscore n then (.GXF_ARGUMENT_INVALID, none, c)
    else mk n

/-- Looks up a live-or-destroyed entity record by uid. -/
def findEntity (c : Context) (eid : Nat) : Option Entity :=
  c.entities.find? (fun e => e.eid == eid)

/-- Overwrites the activation state of the entity with the given uid. -/
def setState (c : Context) (eid : Nat) (s : ActivationState) : Context :=
  { c with
    entities := c.entities.map (fun e => if e.eid == eid then { e with state := s } else e) }

/-- Modelled from the spec: explicit entity activation (`GxfEntityActivate`,
named in `gxf_ext.h` line 133; state machine §4.3): only an `Inactive`
entity may be activated; activating an `Active` entity, or operating on a
destroyed handle, is an `InvalidState` error. -/
def GxfEntityActivate (c : Context) (eid : Nat) : gxf_result_t × Context :=
  match findEntity c eid with
  | none => (.GXF_NOT_FOUND, c)
  | some e =>
    match e.state with
    | .Inactive => (.GXF_SUCCESS, setState c eid .Active)
    | .Active => (.GXF_INVALID_STATE, c)
    | .Destroyed => (.GXF_INVALID_STATE, c)

/-- Modelled from the spec: explicit entity deactivation (state machine
§4.3): only an `Active` entity may be deactivated. -/
def GxfEntityDeactivate (c : Context) (eid : Nat) : gxf_result_t × Context :=
  match findEntity c eid with
  | none => (.GXF_NOT_FOUND, c)
  | some e =>
    match e.state with
    | .Active => (.GXF_SUCCESS, setState c eid .Inactive)
    | .Inactive => (.GXF_INVALID_STATE, c)
    | .Destroyed => (.GXF_INVALID_STATE, c)

/-- Modelled from the spec: `GxfEntityDestroy` (named in `gxf_ext.h` line
130; state machine §4.3): destruction succeeds only from `Inactive`;
destroying an `Active` entity fails with `InvalidState`; destroying an
already-destroyed handle is again a reportable error. -/
def GxfEntityDestroy (c : Context) (eid : Nat) : gxf_result_t × Context :=
  match findEntity c eid with
  | none => (.GXF_NOT_FOUND, c)
  | some e =>
    match e.state with
    | .Inactive => (.GXF_SUCCESS, setState c eid .Destroyed)
    | .Active => (.GXF_INVALID_STATE, c)
    | .Destroyed => (.GXF_INVALID_STATE, c)

/-- Modelled from the spec: program activation (§4.3, `gxf_ext.h` lines
104-108): every program-managed entity that is `Inactive` is activated
automatically; other entities are unaffected. -/
def programActivate (c : Context) : Context :=
  { c with
    programActive := true,
    entities := c.entities.map (fun e =>
      if e.programManaged && (e.state == ActivationState.Inactive) then
        { e with state := .Active }
      else e) }

/-- Modelled from the spec: program deactivation (§4.3): every
program-managed entity that is `Active` is deactivated automatically;
other entities are unaffected. -/
def programDeactivate (c : Context) : Context :=
  { c with
    programActive := false,
    entities := c.entities.map (fun e =>
      if e.programManaged && (e.state == ActivationState.Active) then
        { e with state := .Inactive }
      else e) }

/-- Modelled from the spec: decoding the raw C `gxf_severity_t` argument
(an `int` in the C ABI): only the five enumerator values 0..4 of
`gxf_ext.h` are defined. -/
def severityFromRaw (v : Int) : Option gxf_severity_t :=
  if v = 0 then some .GXF_SEVERITY_NONE
  else if v = 1 then some .GXF_SEVERITY_ERROR
  else if v = 2 then some .GXF_SEVERITY_WARNING
  else if v = 3 then some .GXF_SEVERITY_INFO
  else if v = 4 then some .GXF_SEVERITY_DEBUG
  else none

/-- Modelled from the spec: `GxfSetSeverity` (`gxf_ext.h` line 162,
contract §4.4): an out-of-range level is an `InvalidArgument` error that
leaves the threshold unchanged; a defined level unconditionally overwrites
the process-wide threshold. -/
def GxfSetSeverity (c : Context) (v : Int) : gxf_result_t × Context :=
  match severityFromRaw v with
  | none => (.GXF_ARGUMENT_INVALID, c)
  | some s => (.GXF_SUCCESS, { c with severity := s })

/-- The read-side severity gate (`gxf_ext.h` lines 158-159: "Logs
corresponding to any level <= severity will be logged"): a log statement
tagged `lvl` is emitted iff its numeric value is at most the threshold. -/
def shouldLog (threshold lvl : gxf_severity_t) : Bool :=
  decide (lvl.val ≤ threshold.val)

/-- Concatenation of the type names provided by the libraries of a path
list, in list order; this is what a fully successful load pass appends to
the registry. -/
def providesConcat (w : World) : List String → List String
  | [] => []
  | p :: rest =>
    (match w.library p with
     | none => []
     | some lib => lib.provides) ++ providesConcat w rest

/-- A freshly constructed Context with nothing loaded, no entities, the
program inactive, and the default Info threshold (design note §8 of the
spec). -/
def cEmpty : Context :=
  { extensions := [], registry := [], entities := [], programActive := false,
    severity := .GXF_SEVERITY_INFO, nextUid := 0 }

/-- A concrete collaborator world used to evaluate the operations:
one manifest listing two libraries, where `b.so`'s registration looks up
the type provided by `a.so`; `bad.so` is absent; one well-formed metadata
file. -/
def wDemo : World :=
  { manifest := fun m => if m = "manifest.yaml" then some ["a.so", "b.so"] else none,
    library := fun p =>
      if p = "a.so" then some { provides := ["TypeA"], requires := [] }
      else if p = "b.so" then some { provides := ["TypeB"], requires := ["TypeA"] }
      else if p = "c.so" then some { provides := ["TypeC"], requires := [] }
      else none,
    metadata := fun f => if f = "meta_good.yaml" then some ["TypeM"] else none }

/-- The Context after `a.so` alone has been loaded into `cEmpty`. -/
def cAfterA : Context :=
  { extensions := [⟨"a.so", false⟩], registry := ["TypeA"], entities := [],
    programActive := false, severity := .GXF_SEVERITY_INFO, nextUid := 0 }

/-- The Context produced by creating one program-managed entity (flags
bitmask 1, name omitted) in `cEmpty`. -/
def cCreated : Context :=
  (GxfCreateEntity cEmpty { entity_name := none, flags := 1 }).2.2

/-- The Context after loading direct path `c.so` and manifest
`manifest.yaml` (listing `a.so`, `b.so`) into `cEmpty` under `wDemo`. -/
def cFull : Context :=
  { extensions := [⟨"c.so", false⟩, ⟨"a.so", false⟩, ⟨"b.so", false⟩],
    registry := ["TypeC", "TypeA", "TypeB"], entities := [],
    programActive := false, severity := .GXF_SEVERITY_INFO, nextUid := 0 }

/-- A Context holding a single Active entity with uid 0. -/
def cOneActive : Context :=
  { extensions := [], registry := [],
    entities := [⟨0, "n", false, .Active⟩],
    programActive := true, severity := .GXF_SEVERITY_INFO, nextUid := 1 }

/-- Every error code `loadLibrary` can return is a duplicate-load or a
load-failure error; in particular it is never the success code. -/
theorem loadLibrary_error_cases (w : World) (c : Context) (p : String)
    (e : gxf_result_t) (h : loadLibrary w c p = .error e) :
    e = .GXF_ALREADY_EXISTS ∨ e = .GXF_LOAD_FAILURE := by
  unfold loadLibrary at h
  split at h
  · exact Or.inl (Except.error.inj h).symm
  · split at h
    · exact Or.inr (Except.error.inj h).symm
    · split at h
      · exact absurd h (by simp)
      · exact Or.inr (Except.error.inj h).symm

/-- An error from `loadLibrary` is never `GXF_SUCCESS`. -/
theorem loadLibrary_error_ne_success (w : World) (c : Context) (p : String)
    (e : gxf_result_t) (h : loadLibrary w c p = .error e) :
    e ≠ .GXF_SUCCESS := by
  rcases loadLibrary_error_cases w c p e h with h1 | h1 <;> simp [h1]

/-- Shape of a successful single-library load: the library exists in the
world, a full ExtensionRecord for the path is appended, and the library's
provided types are appended to the registry. -/
theorem loadLibrary_ok_shape (w : World) (c : Context) (p : String) (c2 : Context)
    (h : loadLibrary w c p = .ok c2) :
    ∃ lib, w.library p = some lib ∧
      c2 = { c with extensions := c.extensions ++ [⟨p, false⟩],
                    registry := c.registry ++ lib.provides } := by
  unfold loadLibrary at h
  split at h
  · exact absurd h (by simp)
  · split at h
    · exact absurd h (by simp)
    · next lib hl =>
      split at h
      · exact ⟨lib, hl, (Except.ok.inj h).symm⟩
      · exact absurd h (by simp)

/-- Sequential decomposition of the fail-fast pass: processing `l1 ++ l2`
first processes `l1`, and processes `l2` from the resulting state exactly
when `l1` fully succeeded; a failure inside `l1` is the whole result. -/
theorem loadList_append (w : World) (c : Context) (l1 l2 : List String) :
    loadList w c (l1 ++ l2) =
      (if (loadList w c l1).1 = .GXF_SUCCESS
       then loadList w (loadList w c l1).2 l2
       else loadList w c l1) := by
  induction l1 generalizing c with
  | nil => simp [loadList]
  | cons p rest ih =>
    simp only [List.cons_append, loadList]
    cases hl : loadLibrary w c p with
    | error e =>
      simp [if_neg (loadLibrary_error_ne_success w c p e hl)]
    | ok c2 => exact ih c2

/-- Shape of a fully successful pass: the records of all paths are
appended in list order, and the registry gains every library's provided
types in list order. -/
theorem loadList_success (w : World) (c : Context) (l : List String) (c2 : Context)
    (h : loadList w c l = (.GXF_SUCCESS, c2)) :
    c2.extensions = c.extensions ++ l.map (fun p => ExtensionRecord.mk p false)
    ∧ c2.registry = c.registry ++ providesConcat w l := by
  induction l generalizing c with
  | nil =>
    simp only [loadList, Prod.mk.injEq] at h
    simp [← h.2, providesConcat]
  | cons p rest ih =>
    simp only [loadList] at h
    cases hl : loadLibrary w c p with
    | error e =>
      rw [hl] at h
      simp only [Prod.mk.injEq] at h
      exact absurd h.1 (loadLibrary_error_ne_success w c p e hl)
    | ok cnext =>
      rw [hl] at h
      obtain ⟨lib, hlib, hcn⟩ := loadLibrary_ok_shape w c p cnext hl
      obtain ⟨hext, hreg⟩ := ih cnext h
      subst hcn
      constructor
      · simp only [hext, List.map_cons]
        simp [List.append_assoc]
      · simp only [hreg, providesConcat, hlib]
        simp [List.append_assoc]

/-- C10: calling GxfLoadExtensions with both filename lists empty returns
success and leaves the Context unchanged — no extension record is added,
no library is opened, and no registration entry point runs. -/
theorem load_extensions_empty_noop (w : World) (c : Context)
    (info : GxfLoadExtensionsInfo)
    (h1 : info.extension_filenames = [])
    (h2 : info.manifest_filenames = []) :
    GxfLoadExtensions w c info = (.GXF_SUCCESS, c) := by
  simp [GxfLoadExtensions, h2, expandManifests, combinedPaths, h1,
    firstWinsAux, loadList]

/-- Witness for C10 at a concrete world, Context, and empty info. -/
theorem load_extensions_empty_noop_witness :
    GxfLoadExtensions wDemo cEmpty
      { extension_filenames := [], manifest_filenames := [], base_directory := none }
      = (.GXF_SUCCESS, cEmpty) :=
  load_extensions_empty_noop wDemo cEmpty
    { extension_filenames := [], manifest_filenames := [], base_directory := none }
    rfl rfl

/-- C1: after a successful load of path P, a second load attempt for P —
given directly or expanded from a manifest — fails with the AlreadyExists
duplicate-load error (it does not silently skip), and the Context's set of
loaded extension records is unchanged by the failed attempt. -/
theorem load_once_duplicate (w : World) (c : Context) (P : String)
    (info : GxfLoadExtensionsInfo)
    (hP : P ∈ c.loadedPaths)
    (hbase : info.base_directory = none)
    (hinfo : (info.extension_filenames = [P] ∧ info.manifest_filenames = [])
        ∨ (info.extension_filenames = [] ∧ ∃ m, info.manifest_filenames = [m]
            ∧ w.manifest m = some [P])) :
    GxfLoadExtensions w c info = (.GXF_ALREADY_EXISTS, c)
    ∧ (GxfLoadExtensions w c info).2.extensions = c.extensions := by
  have key : GxfLoadExtensions w c info = (.GXF_ALREADY_EXISTS, c) := by
    rcases hinfo with ⟨hd, hm⟩ | ⟨hd, m, hm, hman⟩
    · simp [GxfLoadExtensions, hm, expandManifests, combinedPaths, hd, hbase,
        resolvePath, firstWinsAux, loadList, loadLibrary, hP]
    · simp [GxfLoadExtensions, hm, expandManifests, hman, combinedPaths, hd, hbase,
        resolvePath, firstWinsAux, loadList, loadLibrary, hP]
  exact ⟨key, by rw [key]⟩

/-- Witness for C1: `a.so` is already loaded in `cAfterA`, and a direct
reload attempt fails with AlreadyExists leaving the records unchanged. -/
theorem load_once_duplicate_witness :
    GxfLoadExtensions wDemo cAfterA
      { extension_filenames := ["a.so"], manifest_filenames := [], base_directory := none }
      = (.GXF_ALREADY_EXISTS, cAfterA)
    ∧ (GxfLoadExtensions wDemo cAfterA
        { extension_filenames := ["a.so"], manifest_filenames := [], base_directory := none }
        ).2.extensions = cAfterA.extensions :=
  load_once_duplicate wDemo cAfterA "a.so"
    { extension_filenames := ["a.so"], manifest_filenames := [], base_directory := none }
    (by decide) rfl (Or.inl ⟨rfl, rfl⟩)

/-- C2: within one successful GxfLoadExtensions call the records appended
are exactly the combined list — direct paths followed by the
manifest-expanded paths, in order — and for every split of that list the
processing of the suffix starts from the state produced by the prefix,
whose registry already holds the types provided by the prefix libraries:
registration side effects of earlier libraries are visible before later
libraries load. -/
theorem load_order_and_visibility (w : World) (c : Context)
    (info : GxfLoadExtensionsInfo) (mp : List String) (c2 : Context)
    (hm : expandManifests w info.manifest_filenames = .ok mp)
    (hs : GxfLoadExtensions w c info = (.GXF_SUCCESS, c2)) :
    c2.extensions = c.extensions
        ++ (combinedPaths info mp).map (fun p => ExtensionRecord.mk p false)
    ∧ ∀ l1 l2, combinedPaths info mp = l1 ++ l2 →
        ∃ c1, loadList w c l1 = (.GXF_SUCCESS, c1)
          ∧ loadList w c1 l2 = (.GXF_SUCCESS, c2)
          ∧ c1.registry = c.registry ++ providesConcat w l1 := by
  have hload : loadList w c (combinedPaths info mp) = (.GXF_SUCCESS, c2) := by
    unfold GxfLoadExtensions at hs
    rw [hm] at hs
    exact hs
  refine ⟨(loadList_success w c _ c2 hload).1, ?_⟩
  intro l1 l2 hsplit
  rw [hsplit, loadList_append] at hload
  rcases hres : loadList w c l1 with ⟨r1, c1⟩
  rw [hres] at hload
  by_cases h1 : r1 = gxf_result_t.GXF_SUCCESS
  · subst h1
    simp only [if_pos rfl] at hload
    exact ⟨c1, rfl, hload, (loadList_success w c l1 c1 hres).2⟩
  · simp only [if_neg h1, Prod.mk.injEq] at hload
    exact absurd hload.1 h1

/-- Witness for C2: direct `c.so` plus manifest `[a.so, b.so]` loads in
order `[c.so, a.so, b.so]`, and `b.so` — whose registration looks up
TypeA — registers successfully because `a.so` was loaded earlier in the
same call. -/
theorem load_order_and_visibility_witness :
    cFull.extensions = cEmpty.extensions
        ++ (combinedPaths
              { extension_filenames := ["c.so"], manifest_filenames := ["manifest.yaml"],
                base_directory := none } ["a.so", "b.so"]).map
            (fun p => ExtensionRecord.mk p false)
    ∧ ∀ l1 l2,
        combinedPaths
          { extension_filenames := ["c.so"], manifest_filenames := ["manifest.yaml"],
            base_directory := none } ["a.so", "b.so"] = l1 ++ l2 →
        ∃ c1, loadList wDemo cEmpty l1 = (.GXF_SUCCESS, c1)
          ∧ loadList wDemo c1 l2 = (.GXF_SUCCESS, cFull)
          ∧ c1.registry = cEmpty.registry ++ providesConcat wDemo l1 :=
  load_order_and_visibility wDemo cEmpty
    { extension_filenames := ["c.so"], manifest_filenames := ["manifest.yaml"],
      base_directory := none }
    ["a.so", "b.so"] cFull rfl rfl

/-- C6: if the library at position k of the combined list fails to load or
register, GxfLoadExtensions returns that error with the state reached just
before the failure: the remaining entries are not processed, and every
extension loaded before the failure remains loaded (no rollback). -/
theorem load_failfast_no_rollback (w : World) (c : Context)
    (info : GxfLoadExtensionsInfo) (mp : List String)
    (l1 : List String) (p : String) (l2 : List String) (c1 : Context)
    (e : gxf_result_t)
    (hm : expandManifests w info.manifest_filenames = .ok mp)
    (hsplit : combinedPaths info mp = l1 ++ p :: l2)
    (h1 : loadList w c l1 = (.GXF_SUCCESS, c1))
    (h2 : loadLibrary w c1 p = .error e) :
    GxfLoadExtensions w c info = (e, c1)
    ∧ c1.extensions = c.extensions ++ l1.map (fun q => ExtensionRecord.mk q false) := by
  constructor
  · unfold GxfLoadExtensions
    rw [hm]
    show loadList w c (combinedPaths info mp) = (e, c1)
    rw [hsplit, loadList_append, h1]
    simp [loadList, h2]
  · exact (loadList_success w c l1 c1 h1).1

/-- Witness for C6: in the list `[a.so, bad.so, c.so]` the second entry
fails to open; the call reports LoadFailure, `a.so` stays loaded, and
`c.so` is never processed. -/
theorem load_failfast_no_rollback_witness :
    GxfLoadExtensions wDemo cEmpty
      { extension_filenames := ["a.so", "bad.so", "c.so"], manifest_filenames := [],
        base_directory := none }
      = (.GXF_LOAD_FAILURE, cAfterA)
    ∧ cAfterA.extensions = cEmpty.extensions
        ++ ["a.so"].map (fun q => ExtensionRecord.mk q false) :=
  load_failfast_no_rollback wDemo cEmpty
    { extension_filenames := ["a.so", "bad.so", "c.so"], manifest_filenames := [],
      base_directory := none }
    [] ["a.so"] "bad.so" ["c.so"] cAfterA .GXF_LOAD_FAILURE
    rfl (by decide) rfl rfl

/-- A metadata file that fails to load leaves the Context unchanged. -/
theorem loadMetadataFile_error_fix (w : World) (c : Context) (f : String)
    (h : (loadMetadataFile w c f).1 ≠ .GXF_SUCCESS) :
    (loadMetadataFile w c f).2 = c := by
  cases hm : w.metadata f with
  | none => simp [loadMetadataFile, hm]
  | some types =>
    by_cases hd : f ∈ c.loadedPaths
    · simp [loadMetadataFile, hm, hd]
    · exact absurd (by simp [loadMetadataFile, hm, hd]) h

/-- Every file handed to the metadata pass produces exactly one per-file
result, whatever the outcomes of the other files. -/
theorem loadMetadataList_length (w : World) :
    ∀ (c : Context) (fs : List String),
      (loadMetadataList w c fs).1.length = fs.length := by
  intro c fs
  induction fs generalizing c with
  | nil => rfl
  | cons g gs ih => simp [loadMetadataList, ih]

/-- C7: per-file independence of GxfLoadExtensionMetadataFiles — a
missing or corrupt metadata file yields a reportable error for that file,
while the remaining files of the same call are processed exactly as they
would have been without it (same per-file results, same final Context),
and every file of the call receives an outcome (best effort per file, in
contrast to the fail-fast list semantics of GxfLoadExtensions). -/
theorem metadata_per_file_independent (w : World) (c : Context) (f : String)
    (rest : List String)
    (hf : (loadMetadataFile w c f).1 ≠ .GXF_SUCCESS) :
    loadMetadataList w c (f :: rest) =
      ((loadMetadataFile w c f).1 :: (loadMetadataList w c rest).1,
       (loadMetadataList w c rest).2)
    ∧ (GxfLoadExtensionMetadataFiles w c (f :: rest)).2
        = (loadMetadataList w c rest).2
    ∧ (loadMetadataList w c (f :: rest)).1.length = rest.length + 1 := by
  have hfix : (loadMetadataFile w c f).2 = c := loadMetadataFile_error_fix w c f hf
  have h1 : loadMetadataList w c (f :: rest) =
      ((loadMetadataFile w c f).1 :: (loadMetadataList w c rest).1,
       (loadMetadataList w c rest).2) := by
    simp only [loadMetadataList]
    rw [hfix]
  refine ⟨h1, ?_, ?_⟩
  · show (loadMetadataList w c (f :: rest)).2 = _
    rw [h1]
  · rw [loadMetadataList_length]
    rfl

/-- Witness for C7: the first metadata file is missing and reports
NotFound, yet the second, well-formed file is still processed and
registered. -/
theorem metadata_per_file_independent_witness :
    loadMetadataList wDemo cEmpty ["meta_bad.yaml", "meta_good.yaml"] =
      ((loadMetadataFile wDemo cEmpty "meta_bad.yaml").1
         :: (loadMetadataList wDemo cEmpty ["meta_good.yaml"]).1,
       (loadMetadataList wDemo cEmpty ["meta_good.yaml"]).2)
    ∧ (GxfLoadExtensionMetadataFiles wDemo cEmpty ["meta_bad.yaml", "meta_good.yaml"]).2
        = (loadMetadataList wDemo cEmpty ["meta_good.yaml"]).2
    ∧ (loadMetadataList wDemo cEmpty ["meta_bad.yaml", "meta_good.yaml"]).1.length
        = ["meta_good.yaml"].length + 1 :=
  metadata_per_file_independent wDemo cEmpty "meta_bad.yaml" ["meta_good.yaml"]
    (by decide)

/-- Mapping an eid-preserving function over an entity list commutes with
looking an entity up by eid. -/
theorem find_map_eid (l : List Entity) (f : Entity → Entity) (eid : Nat)
    (hf : ∀ e, (f e).eid = e.eid) :
    List.find? (fun x => x.eid == eid) (l.map f)
      = (List.find? (fun x => x.eid == eid) l).map f := by
  induction l with
  | nil => rfl
  | cons a l ih =>
    cases h : (a.eid == eid) with
    | true =>
      simp only [List.map_cons, List.find?, hf a, h]
      rfl
    | false => simp only [List.map_cons, List.find?, hf a, h, ih]

/-- Looking up an entity after `setState` returns the old record with the
new state applied exactly when the eid matches. -/
theorem findEntity_setState (c : Context) (eid : Nat) (s : ActivationState) :
    findEntity (setState c eid s) eid
      = (findEntity c eid).map
          (fun x => if x.eid == eid then { x with state := s } else x) := by
  apply find_map_eid
  intro e
  by_cases h : (e.eid == eid) = true <;> simp [h]

/-- Looking up an entity after program activation returns the old record
transformed by the auto-activation rule. -/
theorem findEntity_programActivate (c : Context) (eid : Nat) :
    findEntity (programActivate c) eid
      = (findEntity c eid).map
          (fun e =>
            if e.programManaged && (e.state == ActivationState.Inactive)
            then { e with state := .Active } else e) := by
  apply find_map_eid
  intro e
  by_cases h : (e.programManaged && (e.state == ActivationState.Inactive)) = true <;>
    simp [h]

/-- Looking up an entity after program deactivation returns the old record
transformed by the auto-deactivation rule. -/
theorem findEntity_programDeactivate (c : Context) (eid : Nat) :
    findEntity (programDeactivate c) eid
      = (findEntity c eid).map
          (fun e =>
            if e.programManaged && (e.state == ActivationState.Active)
            then { e with state := .Inactive } else e) := by
  apply find_map_eid
  intro e
  by_cases h : (e.programManaged && (e.state == ActivationState.Active)) = true <;>
    simp [h]

/-- Looking up a uid that no old entity carries, in a list extended by one
new entity, finds exactly the new entity (when its uid matches). -/
theorem find_append_new (l : List Entity) (en : Entity) (eid : Nat)
    (h : ∀ x ∈ l, x.eid ≠ eid) :
    List.find? (fun x => x.eid == eid) (l ++ [en])
      = if (en.eid == eid) = true then some en else none := by
  induction l with
  | nil =>
    cases hEn : (en.eid == eid) with
    | true => simp only [List.nil_append, List.find?, hEn, if_pos]
    | false => simp only [List.nil_append, List.find?, hEn, Bool.false_eq_true,
        if_false]
  | cons a l ih =>
    have ha : (a.eid == eid) = false := by
      simpa using h a (List.mem_cons_self a l)
    simp only [List.cons_append, List.find?, ha]
    exact ih (fun x hx => h x (List.mem_cons_of_mem a hx))

/-- Every member of a Nat list is at most the list's foldr-max. -/
theorem mem_le_foldr_max (l : List Nat) (x : Nat) (h : x ∈ l) :
    x ≤ l.foldr max 0 := by
  induction l with
  | nil => cases h
  | cons a l ih =>
    rcases List.mem_cons.mp h with rfl | h2
    · exact le_max_left _ _
    · exact le_trans (ih h2) (le_max_right _ _)

/-- The generated fresh name is strictly longer than every name recorded
in the Context. -/
theorem freshName_length (c : Context) :
    (freshName c).length = maxNameLen c + 3 := by
  show ('_' :: '_' :: List.replicate (maxNameLen c + 1) 'e').length = maxNameLen c + 3
  simp only [List.length_cons, List.length_replicate]

/-- The generated fresh name differs from every name recorded in the
Context (uniqueness by construction). -/
theorem freshName_not_mem (c : Context) :
    freshName c ∉ c.entities.map Entity.name := by
  intro hmem
  obtain ⟨e, he, hname⟩ := List.mem_map.mp hmem
  have hle : e.name.length ≤ maxNameLen c :=
    mem_le_foldr_max _ _ (List.mem_map.mpr ⟨e, he, rfl⟩)
  rw [hname, freshName_length] at hle
  omega

/-- Shape of every successful GxfCreateEntity call: some name is chosen,
the fresh uid is returned, and a new entity with that name, the decoded
program-managed flag, and Inactive state is appended. -/
theorem GxfCreateEntity_success_shape (c : Context) (info : GxfEntityCreateInfo)
    (h : (GxfCreateEntity c info).1 = .GXF_SUCCESS) :
    ∃ nm, GxfCreateEntity c info =
      (.GXF_SUCCESS, some c.nextUid,
       { c with
         entities := c.entities
            ++ [⟨c.nextUid, nm, hasProgramBit info.flags, .Inactive⟩],
         nextUid := c.nextUid + 1 }) := by
  cases hn : info.entity_name with
  | none => exact ⟨freshName c, by simp [GxfCreateEntity, hn]⟩
  | some n =>
    by_cases h0 : n = ""
    · exact ⟨freshName c, by simp [GxfCreateEntity, hn, h0]⟩
    · by_cases h1 : startsWithDoubleUnderscore n = true
      · exact absurd h (by simp [GxfCreateEntity, hn, h0, h1])
      · exact ⟨n, by simp [GxfCreateEntity, hn, h0, h1]⟩

/-- C5: the entity lifecycle state machine — activating an already-Active
entity is an InvalidState error; destroying an Active entity fails with
InvalidState; deactivating then destroying the same entity succeeds, and
destroying it a second time is again an error; a Destroyed entity accepts
no further transition (terminal); destruction succeeds only from Inactive
and activation only from Inactive, so every entity moves only along
Inactive -> Active -> Inactive -> Destroyed. -/
theorem entity_lifecycle (c : Context) (eid : Nat) (e : Entity)
    (he : findEntity c eid = some e) :
    (e.state = .Active → GxfEntityActivate c eid = (.GXF_INVALID_STATE, c))
    ∧ (e.state = .Active → GxfEntityDestroy c eid = (.GXF_INVALID_STATE, c))
    ∧ (e.state = .Active →
        (GxfEntityDeactivate c eid).1 = .GXF_SUCCESS
        ∧ (GxfEntityDestroy (GxfEntityDeactivate c eid).2 eid).1 = .GXF_SUCCESS
        ∧ (GxfEntityDestroy (GxfEntityDestroy (GxfEntityDeactivate c eid).2 eid).2
            eid).1 = .GXF_INVALID_STATE)
    ∧ (e.state = .Destroyed →
        GxfEntityActivate c eid = (.GXF_INVALID_STATE, c)
        ∧ GxfEntityDeactivate c eid = (.GXF_INVALID_STATE, c)
        ∧ GxfEntityDestroy c eid = (.GXF_INVALID_STATE, c))
    ∧ ((GxfEntityDestroy c eid).1 = .GXF_SUCCESS → e.state = .Inactive)
    ∧ ((GxfEntityActivate c eid).1 = .GXF_SUCCESS → e.state = .Inactive) := by
  have he' : List.find? (fun x => x.eid == eid) c.entities = some e := he
  have hpe : (e.eid == eid) = true :=
    List.find?_some (p := fun (x : Entity) => x.eid == eid) he'
  refine ⟨?_, ?_, ?_, ?_, ?_, ?_⟩
  · intro h
    simp [GxfEntityActivate, he, h]
  · intro h
    simp [GxfEntityDestroy, he, h]
  · intro h
    have heq : e.eid = eid := by simpa using hpe
    have hde : GxfEntityDeactivate c eid = (.GXF_SUCCESS, setState c eid .Inactive) := by
      simp [GxfEntityDeactivate, he, h]
    have hf1 : findEntity (setState c eid .Inactive) eid
        = some { e with state := .Inactive } := by
      rw [findEntity_setState, he]
      simp [heq]
    have hdest : GxfEntityDestroy (setState c eid .Inactive) eid
        = (.GXF_SUCCESS, setState (setState c eid .Inactive) eid .Destroyed) := by
      simp [GxfEntityDestroy, hf1]
    have hf2 : findEntity (setState (setState c eid .Inactive) eid .Destroyed) eid
        = some { e with state := .Destroyed } := by
      rw [findEntity_setState, hf1]
      simp [heq]
    rw [hde]
    exact ⟨rfl, by simp [hdest], by rw [hdest]; simp [GxfEntityDestroy, hf2]⟩
  · intro h
    exact ⟨by simp [GxfEntityActivate, he, h], by simp [GxfEntityDeactivate, he, h],
           by simp [GxfEntityDestroy, he, h]⟩
  · intro h
    cases hstate : e.state with
    | Inactive => rfl
    | Active => simp [GxfEntityDestroy, he, hstate] at h
    | Destroyed => simp [GxfEntityDestroy, he, hstate] at h
  · intro h
    cases hstate : e.state with
    | Inactive => rfl
    | Active => simp [GxfEntityActivate, he, hstate] at h
    | Destroyed => simp [GxfEntityActivate, he, hstate] at h

/-- Witness for C5 on a Context with one Active entity: activate fails,
destroy fails, deactivate-destroy succeeds, and a second destroy fails. -/
theorem entity_lifecycle_witness :
    GxfEntityActivate cOneActive 0 = (.GXF_INVALID_STATE, cOneActive)
    ∧ GxfEntityDestroy cOneActive 0 = (.GXF_INVALID_STATE, cOneActive)
    ∧ (GxfEntityDeactivate cOneActive 0).1 = .GXF_SUCCESS
    ∧ (GxfEntityDestroy (GxfEntityDeactivate cOneActive 0).2 0).1 = .GXF_SUCCESS
    ∧ (GxfEntityDestroy (GxfEntityDestroy (GxfEntityDeactivate cOneActive 0).2 0).2
        0).1 = .GXF_INVALID_STATE :=
  have h := entity_lifecycle cOneActive 0 ⟨0, "n", false, .Active⟩ rfl
  ⟨h.1 rfl, h.2.1 rfl, (h.2.2.1 rfl).1, (h.2.2.1 rfl).2.1, (h.2.2.1 rfl).2.2⟩

/-- C4: program-managed activation asymmetry — a freshly created entity is
Inactive no matter what the program state was at creation (no retroactive
auto-activation); if the program-managed bit is set, a subsequent program
activation drives it to Active and a program deactivation back to
Inactive; without the bit the entity is unaffected by both program
transitions. -/
theorem program_managed_asymmetry (c : Context) (info : GxfEntityCreateInfo)
    (c2 : Context)
    (hwf : ∀ e ∈ c.entities, e.eid ≠ c.nextUid)
    (hok : (GxfCreateEntity c info).1 = .GXF_SUCCESS)
    (hc2 : (GxfCreateEntity c info).2.2 = c2) :
    (findEntity c2 c.nextUid).map Entity.state = some ActivationState.Inactive
    ∧ (hasProgramBit info.flags = true →
        (findEntity (programActivate c2) c.nextUid).map Entity.state
          = some ActivationState.Active)
    ∧ (hasProgramBit info.flags = true →
        (findEntity (programDeactivate (programActivate c2)) c.nextUid).map
            Entity.state = some ActivationState.Inactive)
    ∧ (hasProgramBit info.flags = false →
        findEntity (programActivate c2) c.nextUid = findEntity c2 c.nextUid
        ∧ findEntity (programDeactivate c2) c.nextUid = findEntity c2 c.nextUid) := by
  obtain ⟨nm, hshape⟩ := GxfCreateEntity_success_shape c info hok
  rw [hshape] at hc2
  simp only at hc2
  subst hc2
  have hfind : findEntity
      { c with
        entities := c.entities
          ++ [⟨c.nextUid, nm, hasProgramBit info.flags, .Inactive⟩],
        nextUid := c.nextUid + 1 } c.nextUid
      = some ⟨c.nextUid, nm, hasProgramBit info.flags, .Inactive⟩ := by
    show List.find? _ (c.entities ++ [_]) = _
    rw [find_append_new _ _ _ hwf]
    simp
  refine ⟨?_, ?_, ?_, ?_⟩
  · rw [hfind]
    rfl
  · intro hbit
    rw [findEntity_programActivate, hfind]
    simp [hbit]
  · intro hbit
    rw [findEntity_programDeactivate, findEntity_programActivate, hfind]
    simp [hbit]
  · intro hbit
    constructor
    · rw [findEntity_programActivate, hfind]
      simp [hbit]
    · rw [findEntity_programDeactivate, hfind]
      simp [hbit]

/-- Witness for C4: a program-managed entity created in an inactive
program starts Inactive, turns Active on program activation, and back to
Inactive on program deactivation. -/
theorem program_managed_asymmetry_witness :
    (findEntity cCreated 0).map Entity.state = some ActivationState.Inactive
    ∧ (findEntity (programActivate cCreated) 0).map Entity.state
        = some ActivationState.Active
    ∧ (findEntity (programDeactivate (programActivate cCreated)) 0).map Entity.state
        = some ActivationState.Inactive :=
  have h := program_managed_asymmetry cEmpty { entity_name := none, flags := 1 }
    cCreated (by simp [cEmpty]) (by decide) rfl
  ⟨h.1, h.2.1 (by decide), h.2.2.1 (by decide)⟩

/-- C8: entity name validation and generation — a provided name that
starts with the reserved double underscore makes GxfCreateEntity fail with
InvalidArgument, leaving the Context unchanged (not auto-corrected); with
the name omitted (null) the call succeeds, returns the fresh uid, and the
new entity carries an internally generated name that no recorded entity
carries, with initial activation state Inactive. -/
theorem entity_name_rules (c : Context) (info : GxfEntityCreateInfo) (n : String)
    (hwf : ∀ e ∈ c.entities, e.eid ≠ c.nextUid) :
    (info.entity_name = some n → startsWithDoubleUnderscore n = true →
       GxfCreateEntity c info = (.GXF_ARGUMENT_INVALID, none, c))
    ∧ (info.entity_name = none →
        (GxfCreateEntity c info).1 = .GXF_SUCCESS
        ∧ (GxfCreateEntity c info).2.1 = some c.nextUid
        ∧ freshName c ∉ c.entities.map Entity.name
        ∧ findEntity (GxfCreateEntity c info).2.2 c.nextUid
            = some ⟨c.nextUid, freshName c, hasProgramBit info.flags, .Inactive⟩) := by
  constructor
  · intro hn hres
    have hne : n ≠ "" := by
      intro h0
      rw [h0] at hres
      exact absurd hres (by decide)
    simp [GxfCreateEntity, hn, hne, hres]
  · intro hn
    refine ⟨by simp [GxfCreateEntity, hn], by simp [GxfCreateEntity, hn],
      freshName_not_mem c, ?_⟩
    have hctx : (GxfCreateEntity c info).2.2
        = { c with
            entities := c.entities
              ++ [⟨c.nextUid, freshName c, hasProgramBit info.flags, .Inactive⟩],
            nextUid := c.nextUid + 1 } := by
      simp [GxfCreateEntity, hn]
    rw [hctx]
    show List.find? _ (c.entities ++ [_]) = _
    rw [find_append_new _ _ _ hwf]
    simp

/-- Witness for C8: name "__reserved" is rejected with InvalidArgument and
the Context is unchanged; a null name yields success, uid 0, and the
generated name, unique among recorded entities, on an Inactive entity. -/
theorem entity_name_rules_witness :
    GxfCreateEntity cEmpty { entity_name := some "__reserved", flags := 0 }
      = (.GXF_ARGUMENT_INVALID, none, cEmpty)
    ∧ (GxfCreateEntity cEmpty { entity_name := none, flags := 0 }).1 = .GXF_SUCCESS
    ∧ (GxfCreateEntity cEmpty { entity_name := none, flags := 0 }).2.1 = some 0
    ∧ freshName cEmpty ∉ cEmpty.entities.map Entity.name
    ∧ findEntity (GxfCreateEntity cEmpty { entity_name := none, flags := 0 }).2.2 0
        = some ⟨0, freshName cEmpty, hasProgramBit 0, .Inactive⟩ :=
  have hA := entity_name_rules cEmpty { entity_name := some "__reserved", flags := 0 }
    "__reserved" (by simp [cEmpty])
  have hB := entity_name_rules cEmpty { entity_name := none, flags := 0 }
    "x" (by simp [cEmpty])
  ⟨hA.1 rfl (by decide), (hB.2 rfl).1, (hB.2 rfl).2.1, (hB.2 rfl).2.2.1,
   (hB.2 rfl).2.2.2⟩

/-- C3: the severity gate — setting any defined level s succeeds and makes
it the threshold, after which a statement tagged l is emitted iff
l.val <= s.val under None=0 < Error=1 < Warning=2 < Info=3 < Debug=4; in
particular at threshold Warning the Error- and Warning-tagged calls emit
while Info- and Debug-tagged calls are suppressed, and at threshold None
every log call (Error, Warning, Info, Debug) is suppressed. -/
theorem severity_gate_correct (c : Context) (s l : gxf_severity_t) :
    GxfSetSeverity c (Int.ofNat s.val)
      = (.GXF_SUCCESS, { c with severity := s })
    ∧ (shouldLog ((GxfSetSeverity c (Int.ofNat s.val)).2.severity) l = true
        ↔ l.val ≤ s.val)
    ∧ (shouldLog .GXF_SEVERITY_WARNING .GXF_SEVERITY_ERROR = true
       ∧ shouldLog .GXF_SEVERITY_WARNING .GXF_SEVERITY_WARNING = true
       ∧ shouldLog .GXF_SEVERITY_WARNING .GXF_SEVERITY_INFO = false
       ∧ shouldLog .GXF_SEVERITY_WARNING .GXF_SEVERITY_DEBUG = false)
    ∧ (shouldLog .GXF_SEVERITY_NONE .GXF_SEVERITY_ERROR = false
       ∧ shouldLog .GXF_SEVERITY_NONE .GXF_SEVERITY_WARNING = false
       ∧ shouldLog .GXF_SEVERITY_NONE .GXF_SEVERITY_INFO = false
       ∧ shouldLog .GXF_SEVERITY_NONE .GXF_SEVERITY_DEBUG = false) := by
  have hset : GxfSetSeverity c (Int.ofNat s.val)
      = (.GXF_SUCCESS, { c with severity := s }) := by
    cases s <;> rfl
  refine ⟨hset, ?_, by decide, by decide⟩
  rw [hset]
  simp [shouldLog]

/-- C9: out-of-range severity rejection — every raw value outside the five
defined levels 0..4 makes GxfSetSeverity return InvalidArgument with the
Context (and so its threshold) unchanged, while each defined value decodes
to its level and unconditionally overwrites the threshold. -/
theorem set_severity_range_check (c : Context) (v : Int) :
    (v < 0 ∨ 4 < v → GxfSetSeverity c v = (.GXF_ARGUMENT_INVALID, c))
    ∧ (0 ≤ v → v ≤ 4 →
        ∃ s, severityFromRaw v = some s ∧ (s.val : Int) = v
          ∧ GxfSetSeverity c v = (.GXF_SUCCESS, { c with severity := s })) := by
  constructor
  · intro h
    have h0 : v ≠ 0 := by omega
    have h1 : v ≠ 1 := by omega
    have h2 : v ≠ 2 := by omega
    have h3 : v ≠ 3 := by omega
    have h4 : v ≠ 4 := by omega
    simp [GxfSetSeverity, severityFromRaw, h0, h1, h2, h3, h4]
  · intro hlo hhi
    have hv : v = 0 ∨ v = 1 ∨ v = 2 ∨ v = 3 ∨ v = 4 := by omega
    rcases hv with rfl | rfl | rfl | rfl | rfl
    · exact ⟨.GXF_SEVERITY_NONE, rfl, rfl, rfl⟩
    · exact ⟨.GXF_SEVERITY_ERROR, rfl, rfl, rfl⟩
    · exact ⟨.GXF_SEVERITY_WARNING, rfl, rfl, rfl⟩
    · exact ⟨.GXF_SEVERITY_INFO, rfl, rfl, rfl⟩
    · exact ⟨.GXF_SEVERITY_DEBUG, rfl, rfl, rfl⟩

/-- Witness for C9: the undefined raw value 7 is rejected with
InvalidArgument and no state change, while the defined value 2 decodes to
Warning and overwrites the threshold. -/
theorem set_severity_range_check_witness :
    GxfSetSeverity cEmpty 7 = (.GXF_ARGUMENT_INVALID, cEmpty)
    ∧ ∃ s, severityFromRaw 2 = some s ∧ (gxf_severity_t.val s : Int) = 2
        ∧ GxfSetSeverity cEmpty 2 = (.GXF_SUCCESS, { cEmpty with severity := s }) :=
  ⟨(set_severity_range_check cEmpty 7).1 (Or.inr (by decide)),
   (set_severity_range_check cEmpty 2).2 (by decide) (by decide)⟩

end GxfExt
